import Mathlib

/-!
Shallow embedding of the orbital-mechanics kernel of src/functions.py
(AsteroidClustering): the Kepler solver loop, the position transform,
the orbital-period formula, the Adalia-day time model, and the int16
narrowing applied during ingestion. Floating-point arithmetic is
idealised as real arithmetic; the `while` loop of the solver is embedded
as the iterate sequence `keplerIter` together with the exit relation
`keplerReturns` (first index whose successive difference reaches the
tolerance).
-/

namespace AsteroidClustering

noncomputable section

/-- Astronomical-unit multiplier from src/functions.py (one point is one
million kilometres). -/
def AU_MULTIPLIER : ℝ := 149.597871

/-- Gaussian gravitational constant k used in position_at_adalia_day
(units are days and AU). -/
def gaussianK : ℝ := 0.01720209895

/-- Calibration constant third_law used in calculate_orbital_period. -/
def thirdLaw : ℝ := 0.000007495

/-- Iterates of the fixed-point loop in position_at_adalia_day:
E starts at M and each pass computes E1 = M + e*sin(E). -/
def keplerIter (M e : ℝ) : ℕ → ℝ
  | 0 => M
  | n + 1 => M + e * Real.sin (keplerIter M e n)

/-- The solver's while-loop (last_diff starts at 1, so the body runs at
least once) exits at the first index k whose successive difference is at
most 0.0000001, and the returned eccentric anomaly is the iterate
computed on that final pass. -/
def keplerReturns (M e E : ℝ) : Prop :=
  ∃ k : ℕ, |keplerIter M e (k + 1) - keplerIter M e k| ≤ 0.0000001 ∧
    (∀ j, j < k → 0.0000001 < |keplerIter M e (j + 1) - keplerIter M e j|) ∧
    E = keplerIter M e (k + 1)

/-- True anomaly v = 2*atan(sqrt((1+e)/(1-e)) * tan(E/2)) from
position_at_adalia_day. -/
def trueAnomaly (e E : ℝ) : ℝ :=
  2 * Real.arctan (Real.sqrt ((1 + e) / (1 - e)) * Real.tan (E / 2))

/-- Current radius r = a*(1 - e^2) / (1 + e*cos(v)) from
position_at_adalia_day. -/
def orbitalRadius (a e v : ℝ) : ℝ := a * (1 - e ^ 2) / (1 + e * Real.cos v)

/-- The Cartesian triple computed by position_at_adalia_day from a solved
eccentric anomaly E, including the AU_MULTIPLIER scaling. -/
def posFromE (a e i o w E : ℝ) : ℝ × ℝ × ℝ :=
  let p := w + o
  let v := trueAnomaly e E
  let r := orbitalRadius a e v
  (r * (Real.cos o * Real.cos (v + p - o) -
      Real.sin o * Real.sin (v + p - o) * Real.cos i) * AU_MULTIPLIER,
   r * (Real.sin o * Real.cos (v + p - o) +
      Real.cos o * Real.sin (v + p - o) * Real.cos i) * AU_MULTIPLIER,
   r * Real.sin (v + p - o) * Real.sin i * AU_MULTIPLIER)

/-- Mean motion n = k / sqrt(a^3) from position_at_adalia_day. -/
def meanMotion (a : ℝ) : ℝ := gaussianK / Real.sqrt (a ^ 3)

/-- Mean anomaly at elapsed time, M = m + n*aday, from
position_at_adalia_day. -/
def meanAnomalyAt (a m aday : ℝ) : ℝ := m + meanMotion a * aday

/-- position_at_adalia_day relates its seven inputs to an output triple:
the solver loop exits with some eccentric anomaly E and the returned
position is the transform of E. -/
def posReturns (a e i o w m aday : ℝ) (pos : ℝ × ℝ × ℝ) : Prop :=
  ∃ E, keplerReturns (meanAnomalyAt a m aday) e E ∧ pos = posFromE a e i o w E

/-- calculate_orbital_period: int(sqrt(pow(a, 3) / third_law)). math.sqrt
raises on a negative argument, modelled as none; for a nonnegative
argument the result of int() on the nonnegative square root is its
floor. -/
def calculate_orbital_period (a : ℝ) : Option ℤ :=
  if a ^ 3 < 0 then none else some ⌊Real.sqrt (a ^ 3 / thirdLaw)⌋

/-- Unix seconds of START_ORBIT_TIMESTAMP, 2021-01-01T00:00:00+00:00. -/
def START_ORBIT_EPOCH : ℝ := 1609459200

/-- Unix seconds of START_ARRIVAL_TIMESTAMP, 2021-04-17T14:00:00+00:00. -/
def START_ARRIVAL_EPOCH : ℝ := 1618668000

/-- get_current_adalia_day with the wall-clock read made an explicit
argument (now, in Unix seconds): the selected epoch is subtracted and the
difference in seconds is divided by 60 and then by 60 again. -/
def get_current_adalia_day (display_day : Bool) (now : ℝ) : ℝ :=
  (now - (if display_day then START_ARRIVAL_EPOCH else START_ORBIT_EPOCH)) / 60 / 60

/-- The int16 narrowing that load_asteroids applies to the orbital.T
column via astype: keep the low 16 bits and read them back as a signed
16-bit value. -/
def toInt16 (n : ℤ) : ℤ := (n + 32768) % 65536 - 32768

/-! ## Helper lemmas about the solver iterates -/

lemma keplerIter_zero (M e : ℝ) : keplerIter M e 0 = M := rfl

lemma keplerIter_succ (M e : ℝ) (n : ℕ) :
    keplerIter M e (n + 1) = M + e * Real.sin (keplerIter M e n) := rfl

/-- The sine function moves points by no more than their distance. -/
lemma abs_sin_sub_sin_le (x y : ℝ) : |Real.sin x - Real.sin y| ≤ |x - y| := by
  rw [Real.sin_sub_sin, abs_mul, abs_mul, abs_two]
  have h1 : |Real.sin ((x - y) / 2)| ≤ |x - y| / 2 := by
    calc |Real.sin ((x - y) / 2)| ≤ |(x - y) / 2| := Real.abs_sin_le_abs
      _ = |x - y| / 2 := by rw [abs_div]; norm_num
  have h2 : |Real.cos ((x + y) / 2)| ≤ 1 := Real.abs_cos_le_one _
  calc 2 * |Real.sin ((x - y) / 2)| * |Real.cos ((x + y) / 2)|
      ≤ 2 * (|x - y| / 2) * 1 := by
        apply mul_le_mul _ h2 (abs_nonneg _) (by positivity)
        apply mul_le_mul_of_nonneg_left h1 (by norm_num)
    _ = |x - y| := by ring

/-- Each successive difference of the loop contracts by a factor of the
eccentricity's absolute value. -/
lemma keplerIter_diff_contract (M e : ℝ) (n : ℕ) :
    |keplerIter M e (n + 2) - keplerIter M e (n + 1)| ≤
      |e| * |keplerIter M e (n + 1) - keplerIter M e n| := by
  have h : keplerIter M e (n + 2) - keplerIter M e (n + 1) =
      e * (Real.sin (keplerIter M e (n + 1)) - Real.sin (keplerIter M e n)) := by
    rw [keplerIter_succ M e (n + 1), keplerIter_succ M e n]; ring
  rw [h, abs_mul]
  exact mul_le_mul_of_nonneg_left (abs_sin_sub_sin_le _ _) (abs_nonneg e)

/-- Successive differences of the loop are geometrically bounded. -/
lemma keplerIter_diff_geom (M e : ℝ) (n : ℕ) :
    |keplerIter M e (n + 1) - keplerIter M e n| ≤
      |e| ^ n * |keplerIter M e 1 - keplerIter M e 0| := by
  induction n with
  | zero => simp
  | succ n ih =>
      calc |keplerIter M e (n + 2) - keplerIter M e (n + 1)|
          ≤ |e| * |keplerIter M e (n + 1) - keplerIter M e n| :=
            keplerIter_diff_contract M e n
        _ ≤ |e| * (|e| ^ n * |keplerIter M e 1 - keplerIter M e 0|) :=
            mul_le_mul_of_nonneg_left ih (abs_nonneg e)
        _ = |e| ^ (n + 1) * |keplerIter M e 1 - keplerIter M e 0| := by ring

/-- For eccentricity of absolute value below one, some successive
difference falls below the loop tolerance. -/
lemma keplerIter_exists_stop (M e : ℝ) (he : |e| < 1) :
    ∃ n : ℕ, |keplerIter M e (n + 1) - keplerIter M e n| ≤ 0.0000001 := by
  rcases eq_or_lt_of_le (abs_nonneg (keplerIter M e 1 - keplerIter M e 0)) with h0 | h0
  · refine ⟨0, ?_⟩
    rw [← h0]
    norm_num
  · obtain ⟨n, hn⟩ := exists_pow_lt_of_lt_one
      (div_pos (by norm_num : (0.0000001 : ℝ) > 0) h0) he
    refine ⟨n, le_trans (keplerIter_diff_geom M e n) ?_⟩
    calc |e| ^ n * |keplerIter M e 1 - keplerIter M e 0|
        ≤ (0.0000001 / |keplerIter M e 1 - keplerIter M e 0|) *
            |keplerIter M e 1 - keplerIter M e 0| :=
          mul_le_mul_of_nonneg_right hn.le (le_of_lt h0)
      _ = 0.0000001 := div_mul_cancel₀ _ (ne_of_gt h0)

/-- For eccentricity of absolute value below one, the solver loop
terminates: the exit relation is inhabited. -/
lemma keplerReturns_exists (M e : ℝ) (he : |e| < 1) :
    ∃ E, keplerReturns M e E := by
  classical
  have h := keplerIter_exists_stop M e he
  refine ⟨keplerIter M e (Nat.find h + 1), Nat.find h, Nat.find_spec h, ?_, rfl⟩
  exact fun j hj => not_le.mp (Nat.find_min h hj)

/-- With zero eccentricity every iterate equals the mean anomaly. -/
lemma keplerIter_zero_ecc (M : ℝ) (n : ℕ) : keplerIter M 0 n = M := by
  induction n with
  | zero => rfl
  | succ n ih => rw [keplerIter_succ, ih]; ring

/-- With zero eccentricity the solver exits immediately and returns M. -/
lemma keplerReturns_zero_ecc (M : ℝ) : keplerReturns M 0 M := by
  refine ⟨0, ?_, fun j hj => absurd hj (Nat.not_lt_zero j), ?_⟩
  · rw [keplerIter_zero_ecc, keplerIter_zero_ecc]; norm_num
  · rw [keplerIter_zero_ecc]

/-- With zero eccentricity the value the solver returns is unique: it is
the mean anomaly itself. -/
lemma keplerReturns_zero_ecc_eq (M E : ℝ) (h : keplerReturns M 0 E) : E = M := by
  obtain ⟨k, _, _, hE⟩ := h
  rw [hE, keplerIter_zero_ecc]

/-- Reduction of arctan after tan: whenever the cosine of the angle is
nonzero, arctan of its tangent recovers the angle up to an integer
multiple of pi. -/
lemma arctan_tan_eq_sub_int_mul (θ : ℝ) (hθ : Real.cos θ ≠ 0) :
    ∃ k : ℤ, Real.arctan (Real.tan θ) = θ - k * Real.pi := by
  have hπ : (0:ℝ) < Real.pi := Real.pi_pos
  refine ⟨⌊θ / Real.pi + 1 / 2⌋, ?_⟩
  have h1 : ((⌊θ / Real.pi + 1 / 2⌋ : ℤ) : ℝ) ≤ θ / Real.pi + 1 / 2 := Int.floor_le _
  have h2 : θ / Real.pi + 1 / 2 < (⌊θ / Real.pi + 1 / 2⌋ : ℤ) + 1 := Int.lt_floor_add_one _
  have hmul1 := mul_le_mul_of_nonneg_right h1 hπ.le
  have hmul2 := mul_lt_mul_of_pos_right h2 hπ
  rw [add_mul, div_mul_cancel₀ _ (ne_of_gt hπ)] at hmul1
  rw [add_mul, add_mul, div_mul_cancel₀ _ (ne_of_gt hπ)] at hmul2
  have hlow : -(Real.pi / 2) ≤ θ - (⌊θ / Real.pi + 1 / 2⌋ : ℤ) * Real.pi := by linarith
  have hhigh : θ - (⌊θ / Real.pi + 1 / 2⌋ : ℤ) * Real.pi < Real.pi / 2 := by linarith
  have hne : θ - (⌊θ / Real.pi + 1 / 2⌋ : ℤ) * Real.pi ≠ -(Real.pi / 2) := by
    intro h
    apply hθ
    rw [Real.cos_eq_zero_iff]
    refine ⟨⌊θ / Real.pi + 1 / 2⌋ - 1, ?_⟩
    push_cast
    linarith
  have hlow' : -(Real.pi / 2) < θ - (⌊θ / Real.pi + 1 / 2⌋ : ℤ) * Real.pi :=
    lt_of_le_of_ne hlow (Ne.symm hne)
  have ht : Real.tan θ = Real.tan (θ - (⌊θ / Real.pi + 1 / 2⌋ : ℤ) * Real.pi) :=
    (Real.tan_periodic.sub_int_mul_eq _).symm
  rw [ht, Real.arctan_tan hlow' hhigh]

/-! ## Claim theorems and witnesses -/

/-- C1: for every eccentricity e with 0 <= e < 1 and mean anomaly M in
[-50, 50], any eccentric anomaly returned by the solver loop satisfies
the residual bound |E - e*sin(E) - M| <= 1e-6. -/
theorem kepler_residual_bound (e M E : ℝ) (he0 : 0 ≤ e) (he1 : e < 1)
    (hM1 : -50 ≤ M) (hM2 : M ≤ 50) (hret : keplerReturns M e E) :
    |E - e * Real.sin E - M| ≤ 0.000001 := by
  obtain ⟨k, hstop, _, hE⟩ := hret
  have hB : E = M + e * Real.sin (keplerIter M e k) := by
    rw [hE]; exact keplerIter_succ M e k
  have hid : E - e * Real.sin E - M =
      e * (Real.sin (keplerIter M e k) - Real.sin E) := by linear_combination hB
  rw [hid, abs_mul, abs_of_nonneg he0]
  have hs : |Real.sin (keplerIter M e k) - Real.sin E| ≤ |keplerIter M e k - E| :=
    abs_sin_sub_sin_le _ _
  have hd : |keplerIter M e k - E| ≤ 0.0000001 := by
    rw [hE, abs_sub_comm]; exact hstop
  calc e * |Real.sin (keplerIter M e k) - Real.sin E|
      ≤ 1 * 0.0000001 :=
        mul_le_mul he1.le (hs.trans hd) (abs_nonneg _) zero_le_one
    _ ≤ 0.000001 := by norm_num

/-- Witness for kepler_residual_bound at e = 0, M = 0, where the loop
returns E = 0. -/
theorem kepler_residual_bound_witness :
    keplerReturns 0 0 0 ∧ |(0:ℝ) - 0 * Real.sin 0 - 0| ≤ 0.000001 :=
  ⟨keplerReturns_zero_ecc 0,
    kepler_residual_bound 0 0 0 le_rfl (by norm_num) (by norm_num) (by norm_num)
      (keplerReturns_zero_ecc 0)⟩

/-- C3: for every 0 <= e < 1 and every real mean anomaly M the solver's
while-loop terminates: after finitely many iterations the successive
difference reaches the tolerance and the loop returns that value. -/
theorem kepler_loop_terminates (e M : ℝ) (he0 : 0 ≤ e) (he1 : e < 1) :
    ∃ E, keplerReturns M e E :=
  keplerReturns_exists M e (by rwa [abs_of_nonneg he0])

/-- Witness for kepler_loop_terminates at e = 0.5, M = 1. -/
theorem kepler_loop_terminates_witness : ∃ E, keplerReturns 1 0.5 E :=
  kepler_loop_terminates 0.5 1 (by norm_num) (by norm_num)

/-- C7: with zero eccentricity the solver returns exactly the mean
anomaly (and nothing else), the true anomaly is congruent to M modulo
2*pi wherever the tangent in the formula is defined, and the radius
equals the semi-major axis exactly. -/
theorem circular_orbit_reduction :
    (∀ M : ℝ, keplerReturns M 0 M) ∧
    (∀ M E : ℝ, keplerReturns M 0 E → E = M) ∧
    (∀ M : ℝ, Real.cos (M / 2) ≠ 0 →
      ∃ k : ℤ, trueAnomaly 0 M = M - 2 * Real.pi * k) ∧
    (∀ a v : ℝ, orbitalRadius a 0 v = a) := by
  refine ⟨keplerReturns_zero_ecc, keplerReturns_zero_ecc_eq, ?_, ?_⟩
  · intro M hM
    obtain ⟨k, hk⟩ := arctan_tan_eq_sub_int_mul (M / 2) hM
    refine ⟨k, ?_⟩
    have hone : ((1:ℝ) + 0) / (1 - 0) = 1 := by norm_num
    rw [trueAnomaly, hone, Real.sqrt_one, one_mul, hk]
    ring
  · intro a v
    simp [orbitalRadius]

/-- Witness for circular_orbit_reduction: the solver returns 3 at M = 3,
uniqueness at that input, the congruence at M = 0, and the radius at
a = 2. -/
theorem circular_orbit_reduction_witness :
    keplerReturns 3 0 3 ∧ (3:ℝ) = 3 ∧
      (∃ k : ℤ, trueAnomaly 0 0 = 0 - 2 * Real.pi * k) ∧
      orbitalRadius 2 0 5 = 2 :=
  ⟨circular_orbit_reduction.1 3,
   circular_orbit_reduction.2.1 3 3 (circular_orbit_reduction.1 3),
   circular_orbit_reduction.2.2.1 0 (by norm_num),
   circular_orbit_reduction.2.2.2 2 5⟩

/-- At eccentricity -0.1 and mean anomaly 0 the loop exits on its first
pass and returns 0. -/
lemma keplerReturns_neg_ecc_zero : keplerReturns 0 (-0.1) 0 := by
  have h1 : keplerIter 0 (-0.1) 1 = 0 + (-0.1) * Real.sin (keplerIter 0 (-0.1) 0) :=
    keplerIter_succ 0 (-0.1) 0
  rw [keplerIter_zero, Real.sin_zero] at h1
  refine ⟨0, ?_, fun j hj => absurd hj (Nat.not_lt_zero j), ?_⟩
  · rw [h1, keplerIter_zero]
    norm_num
  · rw [h1]
    norm_num

/-- Evaluation of the position transform at a = 1, e = -0.1, all angles
zero and eccentric anomaly zero. -/
lemma posFromE_neg_ecc_example : posFromE 1 (-0.1) 0 0 0 0 = (1.1 * AU_MULTIPLIER, 0, 0) := by
  have hv : trueAnomaly (-0.1) 0 = 0 := by
    rw [trueAnomaly]
    norm_num
  have hr : orbitalRadius 1 (-0.1) 0 = 1.1 := by
    rw [orbitalRadius, Real.cos_zero]
    norm_num
  simp only [posFromE, hv, hr]
  norm_num

/-- The mean anomaly at elapsed day zero with zero reference anomaly is
zero. -/
lemma meanAnomalyAt_zero (a : ℝ) : meanAnomalyAt a 0 0 = 0 := by
  simp [meanAnomalyAt]

/-- C2 counterexample: position_at_adalia_day called with e = -0.1
(outside [0,1)), a = 1 and all other inputs zero raises nothing: the
invalid eccentricity is silently passed through and concrete coordinates
are produced. -/
theorem invalid_ecc_produces_coordinates :
    posReturns 1 (-0.1) 0 0 0 0 0 (1.1 * AU_MULTIPLIER, 0, 0) := by
  refine ⟨0, ?_, posFromE_neg_ecc_example.symm⟩
  rw [meanAnomalyAt_zero]
  exact keplerReturns_neg_ecc_zero

/-- C2 amended: position_at_adalia_day contains no eccentricity
validation; with e = -0.1 it runs to completion and returns coordinates
for every remaining input with positive semi-major axis. -/
theorem no_domain_check_for_invalid_ecc (a i o w m aday : ℝ) (ha : 0 < a) :
    ∃ pos, posReturns a (-0.1) i o w m aday pos := by
  obtain ⟨E, hE⟩ := keplerReturns_exists (meanAnomalyAt a m aday) (-0.1)
    (by rw [abs_lt]; constructor <;> norm_num)
  exact ⟨posFromE a (-0.1) i o w E, E, hE, rfl⟩

/-- Witness for no_domain_check_for_invalid_ecc at a = 1 and all other
inputs zero. -/
theorem no_domain_check_for_invalid_ecc_witness :
    (0:ℝ) < 1 ∧ ∃ pos, posReturns 1 (-0.1) 0 0 0 0 0 pos :=
  ⟨by norm_num, no_domain_check_for_invalid_ecc 1 0 0 0 0 0 (by norm_num)⟩

/-- C8: with inclination zero, the z component of every position
returned by position_at_adalia_day is zero, for all valid remaining
elements and any elapsed day. -/
theorem z_zero_for_zero_inclination (a e o w m aday x y z : ℝ)
    (ha : 0 < a) (he0 : 0 ≤ e) (he1 : e < 1)
    (h : posReturns a e 0 o w m aday (x, y, z)) : z = 0 := by
  obtain ⟨E, _, hpos⟩ := h
  have hz : z = (posFromE a e 0 o w E).2.2 :=
    congrArg (fun t : ℝ × ℝ × ℝ => t.2.2) hpos
  rw [hz]
  simp [posFromE]

/-- Evaluation of the position transform for the circular example a = 1,
e = 0, all angles zero, eccentric anomaly zero. -/
lemma posFromE_circular_example : posFromE 1 0 0 0 0 0 = (AU_MULTIPLIER, 0, 0) := by
  have hv : trueAnomaly 0 0 = 0 := by
    rw [trueAnomaly]
    norm_num
  have hr : orbitalRadius 1 0 0 = 1 := by
    rw [orbitalRadius, Real.cos_zero]
    norm_num
  simp only [posFromE, hv, hr]
  norm_num

/-- The circular example position is actually returned by
position_at_adalia_day. -/
lemma posReturns_circular_example : posReturns 1 0 0 0 0 0 0 (AU_MULTIPLIER, 0, 0) := by
  refine ⟨0, ?_, posFromE_circular_example.symm⟩
  rw [meanAnomalyAt_zero]
  exact keplerReturns_zero_ecc 0

/-- Witness for z_zero_for_zero_inclination at the circular example. -/
theorem z_zero_for_zero_inclination_witness :
    posReturns 1 0 0 0 0 0 0 (AU_MULTIPLIER, 0, 0) ∧ (0:ℝ) = 0 :=
  ⟨posReturns_circular_example,
   z_zero_for_zero_inclination 1 0 0 0 0 0 AU_MULTIPLIER 0 0 (by norm_num) le_rfl
     (by norm_num) posReturns_circular_example⟩

/-- Floor of a square root from integer square bounds. -/
lemma floor_sqrt_eq_of_sq_bounds (q : ℝ) (n : ℕ)
    (h1 : ((n:ℝ)) ^ 2 ≤ q) (h2 : q < ((n:ℝ) + 1) ^ 2) :
    ⌊Real.sqrt q⌋ = (n : ℤ) := by
  have hq : 0 ≤ q := le_trans (by positivity) h1
  rw [Int.floor_eq_iff]
  constructor
  · push_cast
    exact (Real.le_sqrt (by positivity) hq).mpr h1
  · push_cast
    exact (Real.sqrt_lt' (by positivity)).mpr h2

/-- The period at a = 1 AU evaluates to 365 simulated days. -/
lemma period_at_one : calculate_orbital_period 1 = some 365 := by
  simp only [calculate_orbital_period, thirdLaw]
  rw [if_neg (by norm_num)]
  have hq : (1:ℝ) ^ 3 / 0.000007495 = 200000000 / 1499 := by norm_num
  rw [hq]
  have := floor_sqrt_eq_of_sq_bounds (200000000 / 1499) 365 (by norm_num) (by norm_num)
  rw [this]
  norm_num

/-- The period at a = 1.001 AU also evaluates to 365 simulated days. -/
lemma period_at_one_point_001 : calculate_orbital_period 1.001 = some 365 := by
  simp only [calculate_orbital_period, thirdLaw]
  rw [if_neg (by norm_num)]
  have hq : (1.001:ℝ) ^ 3 / 0.000007495 = 1003003001 / 7495 := by norm_num
  rw [hq]
  have := floor_sqrt_eq_of_sq_bounds (1003003001 / 7495) 365 (by norm_num) (by norm_num)
  rw [this]
  norm_num

/-- The period at a = 100 AU evaluates to 365270 simulated days. -/
lemma period_at_hundred : calculate_orbital_period 100 = some 365270 := by
  simp only [calculate_orbital_period, thirdLaw]
  rw [if_neg (by norm_num)]
  have hq : (100:ℝ) ^ 3 / 0.000007495 = 200000000000000 / 1499 := by norm_num
  rw [hq]
  have := floor_sqrt_eq_of_sq_bounds (200000000000000 / 1499) 365270 (by norm_num) (by norm_num)
  rw [this]
  norm_num

/-- The period at a = 0 evaluates to the value 0 without any error. -/
lemma period_at_zero : calculate_orbital_period 0 = some 0 := by
  simp only [calculate_orbital_period, thirdLaw]
  rw [if_neg (by norm_num)]
  norm_num

/-- C4 counterexample: a = 1 and a = 1.001 both map to period 365, so
calculate_orbital_period is not strictly increasing on 0 < a1 < a2. -/
theorem period_not_strictly_increasing :
    ¬ ∀ (a₁ a₂ : ℝ) (p₁ p₂ : ℤ), 0 < a₁ → a₁ < a₂ →
      calculate_orbital_period a₁ = some p₁ →
      calculate_orbital_period a₂ = some p₂ → p₁ < p₂ := by
  intro h
  have h365 := h 1 1.001 365 365 (by norm_num) (by norm_num)
    period_at_one period_at_one_point_001
  exact absurd h365 (lt_irrefl 365)

/-- C4 amended: calculate_orbital_period is monotone nondecreasing in a
for a > 0; the integer truncation makes the increase non-strict on small
intervals. -/
theorem period_monotone (a₁ a₂ : ℝ) (p₁ p₂ : ℤ) (h1 : 0 < a₁) (h12 : a₁ ≤ a₂)
    (hp1 : calculate_orbital_period a₁ = some p₁)
    (hp2 : calculate_orbital_period a₂ = some p₂) : p₁ ≤ p₂ := by
  have h2 : 0 < a₂ := lt_of_lt_of_le h1 h12
  have hC : (0:ℝ) < thirdLaw := by rw [thirdLaw]; norm_num
  simp only [calculate_orbital_period] at hp1 hp2
  rw [if_neg (not_lt.mpr (by positivity)), Option.some_inj] at hp1
  rw [if_neg (not_lt.mpr (by positivity)), Option.some_inj] at hp2
  rw [← hp1, ← hp2]
  apply Int.floor_le_floor
  apply Real.sqrt_le_sqrt
  exact (div_le_div_iff_of_pos_right hC).mpr (pow_le_pow_left₀ h1.le h12 3)

/-- Witness for period_monotone at a1 = 1, a2 = 1.001. -/
theorem period_monotone_witness :
    calculate_orbital_period 1 = some 365 ∧
      calculate_orbital_period 1.001 = some 365 ∧ (365:ℤ) ≤ 365 :=
  ⟨period_at_one, period_at_one_point_001,
   period_monotone 1 1.001 365 365 (by norm_num) (by norm_num)
     period_at_one period_at_one_point_001⟩

/-- C5 counterexample: calculate_orbital_period called with a = 0
returns the value 0 instead of raising any error. -/
theorem period_zero_returns_value : calculate_orbital_period 0 = some 0 :=
  period_at_zero

/-- C5 amended: a = 0 is not rejected and returns 0; only a < 0 produces
an error, and that error arises from math.sqrt on a negative argument
rather than from an explicit precondition check. -/
theorem period_domain_behavior :
    (∀ a : ℝ, a < 0 → calculate_orbital_period a = none) ∧
    calculate_orbital_period 0 = some 0 := by
  constructor
  · intro a ha
    simp only [calculate_orbital_period]
    rw [if_pos (Odd.pow_neg (⟨1, by norm_num⟩ : Odd 3) ha)]
  · exact period_at_zero

/-- Witness for period_domain_behavior at a = -1 and a = 0. -/
theorem period_domain_behavior_witness :
    calculate_orbital_period (-1) = none ∧ calculate_orbital_period 0 = some 0 :=
  ⟨period_domain_behavior.1 (-1) (by norm_num), period_domain_behavior.2⟩

/-- C6: for every a > 0 calculate_orbital_period returns the integer
floor of sqrt(a^3 / 0.000007495). -/
theorem period_formula (a : ℝ) (ha : 0 < a) :
    calculate_orbital_period a = some ⌊Real.sqrt (a ^ 3 / 0.000007495)⌋ := by
  simp only [calculate_orbital_period, thirdLaw]
  rw [if_neg (not_lt.mpr (by positivity))]

/-- Witness for period_formula at a = 1. -/
theorem period_formula_witness :
    (0:ℝ) < 1 ∧ calculate_orbital_period 1 = some ⌊Real.sqrt ((1:ℝ) ^ 3 / 0.000007495)⌋ :=
  ⟨by norm_num, period_formula 1 (by norm_num)⟩

/-- C9: get_current_adalia_day returns exactly (now - epoch) / 3600
seconds-to-days, with the arrival epoch selected when display_day is
true and the orbit epoch otherwise, for every current instant. -/
theorem adalia_day_formula (display_day : Bool) (now : ℝ) :
    get_current_adalia_day display_day now =
      (now - (if display_day then START_ARRIVAL_EPOCH else START_ORBIT_EPOCH)) / 3600 := by
  simp only [get_current_adalia_day, div_div]
  norm_num

/-- C10: whenever the computed orbital period exceeds 32767, the int16
narrowing applied by load_asteroids stores a value congruent to the
period modulo 2^16 but different from it. -/
theorem int16_narrowing_wraps (a : ℝ) (p : ℤ)
    (hp : calculate_orbital_period a = some p) (hgt : 32767 < p) :
    toInt16 p ≠ p ∧ toInt16 p % 65536 = p % 65536 := by
  simp only [toInt16]
  constructor
  · omega
  · omega

/-- Witness for int16_narrowing_wraps at a = 100 AU, period 365270. -/
theorem int16_narrowing_wraps_witness :
    calculate_orbital_period 100 = some 365270 ∧ (32767:ℤ) < 365270 ∧
      toInt16 365270 ≠ 365270 ∧ toInt16 365270 % 65536 = 365270 % 65536 :=
  ⟨period_at_hundred, by norm_num,
   int16_narrowing_wraps 100 365270 period_at_hundred (by norm_num)⟩

end

end AsteroidClustering
